import Mathlib

/-!
Shallow embedding of the StarRocks routine-load consumer group
(be/src/runtime/routine_load/data_consumer_group.cpp): statuses, the
finish callback executed by each worker, round-robin partition division
in assign_topic_partitions, the drain loop and finalization of start_all,
and the destructor that drains the shared queue.
-/

namespace ConsumerGroup

/-- Return status, mirroring the starrocks::Status values this file
produces or receives: OK, InternalError, Cancelled, and a generic error
standing for any other non-OK status a consumer or the pipe may report. -/
inductive Status where
  | ok : Status
  | internalError : String → Status
  | cancelled : String → Status
  | ioError : String → Status
deriving DecidableEq, Repr

/-- Mirrors Status::ok(). -/
def Status.isOk : Status → Bool
  | .ok => true
  | _ => false

theorem Status.isOk_iff (st : Status) : st.isOk = true ↔ st = .ok := by
  cases st <;> simp [Status.isOk]

@[simp] theorem Status.isOk_ok : (Status.ok).isOk = true := rfl

/-- A Kafka message as the drain loop sees it: partition id (int32_t),
offset (int64_t) and payload length msg.len (size_t, hence a Nat). -/
structure KafkaMsg where
  partition : Int
  offset : Int
  len : Nat
deriving DecidableEq, Repr

/-- Association-list model of std::map lookup (find). -/
def mapGet (m : List (Int × Int)) (k : Int) : Option Int :=
  match m with
  | [] => none
  | (k0, v0) :: rest => if k = k0 then some v0 else mapGet rest k

/-- Association-list model of std::map operator[] assignment:
insert the key with the value, or overwrite the existing entry. -/
def mapSet (m : List (Int × Int)) (k : Int) (v : Int) : List (Int × Int) :=
  match m with
  | [] => [(k, v)]
  | (k0, v0) :: rest => if k = k0 then (k, v) :: rest else (k0, v0) :: mapSet rest k v

theorem mapGet_mapSet (m : List (Int × Int)) (k v q : Int) :
    mapGet (mapSet m k v) q = if q = k then some v else mapGet m q := by
  induction m with
  | nil => simp only [mapSet, mapGet]
  | cons kv rest ih =>
    obtain ⟨k0, v0⟩ := kv
    simp only [mapSet]
    by_cases hk : k = k0
    · subst hk
      simp only [if_pos rfl, mapGet]
      by_cases hq : q = k <;> simp [hq]
    · simp only [if_neg hk, mapGet, ih]
      by_cases hq : q = k0
      · subst hq
        have hqk : ¬ q = k := fun h => hk h.symm
        simp [hqk]
      · simp [hq]

/-! ### Worker finish callback (start_all lines 74-86)

Each consumer worker, when its run terminates, invokes the callback with
its terminal status.  Under the group mutex the callback decrements the
completion counter, shuts the shared queue down when the counter reaches
zero, and latches the first non-OK status into result_st. -/

/-- The state touched by the finish callback: the completion counter
_counter, whether _queue.shutdown() has been invoked by the callback,
and the latched result_st. -/
structure CallbackState where
  counter : Int
  queueShutdown : Bool
  resultSt : Status
deriving DecidableEq, Repr

/-- One invocation of the finish callback (the lambda captured as
capture2 in start_all): counter decrement, conditional queue shutdown,
first-error latch update. -/
def finishCallback (s : CallbackState) (st : Status) : CallbackState :=
  let counter := s.counter - 1
  { counter := counter
    queueShutdown := s.queueShutdown || (counter == 0)
    resultSt := if s.resultSt.isOk && !st.isOk then st else s.resultSt }

/-- The callback invocations of all workers, in the order the workers
finish. -/
def runCallbacks (s : CallbackState) (sts : List Status) : CallbackState :=
  sts.foldl finishCallback s

/-- Modelled from the spec: the completion counter starts at the number
of workers, one callback invocation per worker.  The initialization of
_counter lives in data_consumer_group.h, which is not among the sources;
the spec states the counter is decremented exactly once per finished
worker and reaching zero signals that all workers are done. -/
def initCallbackState (n : Nat) : CallbackState :=
  { counter := (n : Int), queueShutdown := false, resultSt := .ok }

/-- The first non-OK status of a list, OK if none: the value the spec
says the first-error latch holds after all workers finished. -/
def firstNonOk : List Status → Status
  | [] => .ok
  | st :: rest => if st.isOk then firstNonOk rest else st

/-- The value of result_st once all workers have invoked the callback. -/
def latchedResult (wsts : List Status) : Status :=
  (runCallbacks (initCallbackState wsts.length) wsts).resultSt

theorem runCallbacks_counter (sts : List Status) (s : CallbackState) :
    (runCallbacks s sts).counter = s.counter - sts.length := by
  induction sts generalizing s with
  | nil => simp [runCallbacks]
  | cons st rest ih =>
    have h := ih (finishCallback s st)
    simp only [runCallbacks, List.foldl_cons] at h ⊢
    rw [h]
    simp [finishCallback]
    omega

theorem runCallbacks_shutdown (sts : List Status) (s : CallbackState) :
    (runCallbacks s sts).queueShutdown =
      (s.queueShutdown || decide (1 ≤ s.counter ∧ s.counter ≤ sts.length)) := by
  induction sts generalizing s with
  | nil =>
    simp only [runCallbacks, List.foldl_nil, List.length_nil, Nat.cast_zero]
    have h : ¬ (1 ≤ s.counter ∧ s.counter ≤ 0) := by omega
    simp [h]
  | cons st rest ih =>
    have h := ih (finishCallback s st)
    simp only [runCallbacks, List.foldl_cons] at h ⊢
    rw [h]
    simp only [finishCallback]
    rw [Bool.eq_iff_iff]
    cases hq : s.queueShutdown with
    | true => simp
    | false =>
      simp only [Bool.false_or, Bool.or_eq_true, beq_iff_eq, decide_eq_true_eq,
        List.length_cons]
      push_cast
      omega

theorem runCallbacks_latch_stable (sts : List Status) (s : CallbackState)
    (h : s.resultSt.isOk = false) :
    (runCallbacks s sts).resultSt = s.resultSt := by
  induction sts generalizing s with
  | nil => simp [runCallbacks]
  | cons st rest ih =>
    have hstep : (finishCallback s st).resultSt = s.resultSt := by
      simp [finishCallback, h]
    have hrec := ih (finishCallback s st) (by rw [hstep]; exact h)
    simp only [runCallbacks, List.foldl_cons] at hrec ⊢
    rw [hrec, hstep]

theorem runCallbacks_latch_ok (sts : List Status) (s : CallbackState)
    (h : s.resultSt = .ok) :
    (runCallbacks s sts).resultSt = firstNonOk sts := by
  induction sts generalizing s with
  | nil => simp [runCallbacks, firstNonOk, h]
  | cons st rest ih =>
    by_cases hst : st.isOk = true
    · have hok : st = .ok := (Status.isOk_iff st).mp hst
      have hstep : (finishCallback s st).resultSt = .ok := by
        simp [finishCallback, h, hok]
      have hrec := ih (finishCallback s st) hstep
      simp only [runCallbacks, List.foldl_cons] at hrec ⊢
      rw [hrec]
      simp [firstNonOk, hst]
    · have hst' : st.isOk = false := by simpa using hst
      have hstep : (finishCallback s st).resultSt = st := by
        simp [finishCallback, h, hst']
      have hrec := runCallbacks_latch_stable rest (finishCallback s st)
        (by rw [hstep]; exact hst')
      simp only [runCallbacks, List.foldl_cons] at hrec ⊢
      rw [hrec, hstep]
      simp [firstNonOk, hst']

/-! ### Partition division (assign_topic_partitions lines 35-43)

The loop walks kafka_info begin_offset in its iteration order and places
the i-th key/value pair into divide_parts at index i mod consumer_size.
The map is modelled as the list of its entries in iteration order. -/

/-- The divide_parts vector built by assign_topic_partitions: bucket idx
receives exactly the pairs whose position i in the iteration order of
begin_offset satisfies i mod consumerSize = idx, keeping their relative
order. -/
def divideParts (consumerSize : Nat) (beginOffset : List (Int × Int)) :
    List (List (Int × Int)) :=
  (List.range consumerSize).map fun idx =>
    (beginOffset.enum.filter fun p => p.1 % consumerSize == idx).map Prod.snd

/-! ### The drain loop of start_all (lines 95-194) -/

/-- The fields of StreamLoadContext that start_all reads or writes:
max_interval_s, max_batch_size, the prior committed offset map
kafka_info cmt_offset, and the receive_bytes telemetry field. -/
structure StreamLoadContext where
  maxIntervalS : Int
  maxBatchSize : Int
  cmtOffset : List (Int × Int)
  receiveBytes : Int
deriving DecidableEq, Repr

/-- The local variables of the drain loop in start_all: left_time,
received_rows, left_bytes, the working copy cmt_offset of the committed
offset map, the append status variable st (declared at line 127 and,
in this source, never assigned afterwards), and the eos flag. -/
structure LoopState where
  leftTime : Int
  receivedRows : Int
  leftBytes : Int
  cmtOffset : List (Int × Int)
  st : Status
  eos : Bool
deriving DecidableEq, Repr

/-- The loop state at entry of the drain loop (lines 95-128). -/
def initLoopState (ctx : StreamLoadContext) : LoopState :=
  { leftTime := ctx.maxIntervalS * 1000
    receivedRows := 0
    leftBytes := ctx.maxBatchSize
    cmtOffset := ctx.cmtOffset
    st := .ok
    eos := false }

/-- One outcome of _queue.blocking_get in an iteration of the drain
loop: either a message was dequeued (together with the status the pipe
append call for it returns, and the monotonic watch reading in
nanoseconds at the end of the iteration), or the queue reported
shutdown-and-empty.  The append status is recorded for the message even
though line 174 of the source discards it. -/
inductive DrainEvent where
  | got : KafkaMsg → Status → Int → DrainEvent
  | closed : Int → DrainEvent
deriving DecidableEq, Repr

/-- One iteration body of the drain loop (lines 168-193), after the
terminal check has failed.  On a dequeued message the pipe append is
called and its status discarded (line 174), so the subsequent test
reads the untouched st variable; on st.ok() the row counter, byte
budget and offset map are updated.  On a closed queue eos is set.  At
the end left_time is recomputed from the monotonic watch (line 193),
elapsed nanoseconds divided twice by 1000. -/
def processEvent (ctx : StreamLoadContext) (s : LoopState) : DrainEvent → LoopState
  | .got msg _appendSt elapsedNs =>
    let s1 :=
      if s.st.isOk then
        { s with
          receivedRows := s.receivedRows + 1
          leftBytes := s.leftBytes - (msg.len : Int)
          cmtOffset := mapSet s.cmtOffset msg.partition msg.offset }
      else
        { s with eos := true }
    { s1 with leftTime := ctx.maxIntervalS * 1000 - elapsedNs / 1000 / 1000 }
  | .closed elapsedNs =>
    { s with
      eos := true
      leftTime := ctx.maxIntervalS * 1000 - elapsedNs / 1000 / 1000 }

/-- The drain loop (lines 129-194): at the top of each iteration the
terminal condition eos or left_time <= 0 or left_bytes <= 0 is checked;
when it holds the loop exits with the current state, otherwise the next
blocking_get outcome is processed.  Returns none when the supplied
event trace is exhausted before the loop reaches its terminal
condition. -/
def drainStep (ctx : StreamLoadContext) : LoopState → List DrainEvent → Option LoopState
  | s, events =>
    if s.eos = true ∨ s.leftTime ≤ 0 ∨ s.leftBytes ≤ 0 then some s
    else
      match events with
      | [] => none
      | ev :: rest => drainStep ctx (processEvent ctx s ev) rest

/-- The whole drain loop of start_all, from the initial loop state. -/
def runDrain (ctx : StreamLoadContext) (events : List DrainEvent) : Option LoopState :=
  drainStep ctx (initLoopState ctx) events

/-- The observable outcome of start_all: the returned status, which of
the cleanup actions ran (queue shutdown, consumer cancellation, pool
shutdown and join at lines 139-147), whether kafka_pipe finish or
cancel was called and with which reason, and the values of the
kafka_info cmt_offset and receive_bytes fields of the context when
start_all returns. -/
structure FinalResult where
  status : Status
  queueShutdown : Bool
  consumersCancelled : Bool
  poolJoined : Bool
  pipeFinished : Bool
  pipeCancelReason : Option Status
  ctxCmtOffset : List (Int × Int)
  ctxReceiveBytes : Int
deriving DecidableEq, Repr

/-- Finalization of start_all (lines 131-165), entered when the drain
loop terminal condition holds: shut the queue down, cancel all
consumers, shut down and join the pool; then return the latched worker
error if there is one, else cancel the pipe when no byte was consumed,
else finish the pipe and write cmt_offset and receive_bytes back into
the context. -/
def finalize (ctx : StreamLoadContext) (resultSt : Status) (s : LoopState) : FinalResult :=
  if resultSt.isOk = false then
    { status := resultSt
      queueShutdown := true, consumersCancelled := true, poolJoined := true
      pipeFinished := false, pipeCancelReason := none
      ctxCmtOffset := ctx.cmtOffset, ctxReceiveBytes := ctx.receiveBytes }
  else if s.leftBytes = ctx.maxBatchSize then
    { status := .cancelled "Cancelled"
      queueShutdown := true, consumersCancelled := true, poolJoined := true
      pipeFinished := false, pipeCancelReason := some (.cancelled "Cancelled")
      ctxCmtOffset := ctx.cmtOffset, ctxReceiveBytes := ctx.receiveBytes }
  else
    { status := .ok
      queueShutdown := true, consumersCancelled := true, poolJoined := true
      pipeFinished := true, pipeCancelReason := none
      ctxCmtOffset := s.cmtOffset, ctxReceiveBytes := ctx.maxBatchSize - s.leftBytes }

/-- The submission loop of start_all (lines 72-92): offer one pool task
per consumer; the first failed offer aborts with InternalError.  The
list holds the success of each offer in consumer order. -/
def submitAll : List Bool → Status
  | [] => .ok
  | offer :: rest => if offer then submitAll rest else .internalError "failed to submit data consumer"

/-- The result start_all returns when a pool offer fails (lines 87-88):
the InternalError is returned at once, before the drain loop, so no
queue shutdown, consumer cancellation, pool join or pipe call happens
and the context is untouched. -/
def submitFailResult (ctx : StreamLoadContext) (st : Status) : FinalResult :=
  { status := st
    queueShutdown := false, consumersCancelled := false, poolJoined := false
    pipeFinished := false, pipeCancelReason := none
    ctxCmtOffset := ctx.cmtOffset, ctxReceiveBytes := ctx.receiveBytes }

/-- KafkaDataConsumerGroup start_all: submit one worker per consumer,
then drain the shared queue and finalize.  offers records whether each
pool offer succeeds, workerSts the terminal status each worker passes
to the finish callback (read as result_st after the pool join), events
the blocking_get outcomes seen by the drain loop.  Returns none when
the event trace ends before the drain loop terminates. -/
def start_all (ctx : StreamLoadContext) (offers : List Bool) (workerSts : List Status)
    (events : List DrainEvent) : Option FinalResult :=
  if (submitAll offers).isOk then
    (runDrain ctx events).map (finalize ctx (latchedResult workerSts))
  else
    some (submitFailResult ctx (submitAll offers))

/-! ### The destructor (lines 54-67) -/

/-- The shared TimedBlockingQueue as the destructor sees it: the
messages still queued, in order, and whether shutdown was invoked. -/
structure MsgQueue where
  items : List KafkaMsg
  isShutdown : Bool
deriving DecidableEq, Repr

/-- queue.shutdown(). -/
def MsgQueue.shutdown (q : MsgQueue) : MsgQueue :=
  { q with isShutdown := true }

/-- queue.blocking_get on a queue that has been shut down: it returns
the front message while any remain and reports false once the queue is
drained.  The blocking behaviour of an open empty queue is not reached
on the destructor path, which shuts the queue down first. -/
def MsgQueue.blockingGet (q : MsgQueue) : Option (KafkaMsg × MsgQueue) :=
  match q.items with
  | [] => none
  | m :: rest => some (m, { q with items := rest })

/-- The drain-and-delete loop of the destructor: blocking_get until it
returns false, deleting (collecting) every message obtained. -/
def drainQueue : List KafkaMsg → MsgQueue → MsgQueue × List KafkaMsg
  | [], q => (q, [])
  | _fuel :: fuels, q =>
    match q.blockingGet with
    | none => (q, [])
    | some (m, q1) =>
      let (q2, ms) := drainQueue fuels q1
      (q2, m :: ms)

/-- The KafkaDataConsumerGroup destructor: shut the queue down, then
drain it, deleting every remaining message.  The fuel list drives the
structural recursion; the queue items themselves suffice. -/
def groupDestructor (q : MsgQueue) : MsgQueue × List KafkaMsg :=
  let q1 := q.shutdown
  drainQueue q1.items q1

/-! ### General lemmas -/

theorem submitAll_of_mem_false (offers : List Bool) (hf : false ∈ offers) :
    submitAll offers = .internalError "failed to submit data consumer" := by
  induction offers with
  | nil => cases hf
  | cons b rest ih =>
    cases b
    · simp [submitAll]
    · have hrest : false ∈ rest := by simpa using hf
      simp [submitAll, ih hrest]

theorem drainQueue_spec (l : List KafkaMsg) (q : MsgQueue) (h : q.items = l) :
    drainQueue l q = ({ items := [], isShutdown := q.isShutdown }, l) := by
  induction l generalizing q with
  | nil =>
    obtain ⟨items, shut⟩ := q
    simp only at h
    subst h
    rfl
  | cons m rest ih =>
    have hb : q.blockingGet = some (m, { q with items := rest }) := by
      simp [MsgQueue.blockingGet, h]
    simp only [drainQueue, hb]
    rw [ih { q with items := rest } rfl]

/-! ### Claim theorems -/

/-- C10: the destructor shuts the shared queue down and then drains it
completely, releasing (deleting) every message still queued: whatever
the state at destruction, the queue ends empty and shut down, and the
released messages are exactly the queued ones in order. -/
theorem destructor_drains_queue (q : MsgQueue) :
    (groupDestructor q).1.items = [] ∧
    (groupDestructor q).1.isShutdown = true ∧
    (groupDestructor q).2 = q.items := by
  have h := drainQueue_spec q.items { q with isShutdown := true } rfl
  simp [groupDestructor, MsgQueue.shutdown, h]

/-- C8: if the worker pool rejects the submission of any consumer task,
start_all returns InternalError at once: no queue shutdown, no consumer
cancellation, no pool join, no pipe call, context untouched. -/
theorem submit_failure_aborts (ctx : StreamLoadContext) (offers : List Bool)
    (wsts : List Status) (events : List DrainEvent) (hf : false ∈ offers) :
    start_all ctx offers wsts events =
      some { status := .internalError "failed to submit data consumer"
             queueShutdown := false
             consumersCancelled := false
             poolJoined := false
             pipeFinished := false
             pipeCancelReason := none
             ctxCmtOffset := ctx.cmtOffset
             ctxReceiveBytes := ctx.receiveBytes } := by
  have h := submitAll_of_mem_false offers hf
  simp [start_all, h, Status.isOk, submitFailResult]

theorem submit_failure_aborts_witness :
    false ∈ [true, false] ∧
    start_all ⟨60, 1024, [(0, 7)], 0⟩ [true, false] [] [] =
      some { status := .internalError "failed to submit data consumer"
             queueShutdown := false
             consumersCancelled := false
             poolJoined := false
             pipeFinished := false
             pipeCancelReason := none
             ctxCmtOffset := [(0, 7)]
             ctxReceiveBytes := 0 } :=
  ⟨by decide, submit_failure_aborts ⟨60, 1024, [(0, 7)], 0⟩ [true, false] [] [] (by decide)⟩

/-- C6: one finish-callback invocation per worker, in finish order:
every invocation decrements the completion counter by exactly one (the
counter after any k invocations is the worker count minus k, and it
ends at zero), the queue is shut down by the callback exactly at the
invocation where the counter reaches zero (false after every proper
prefix of the invocations, true after all of them), and the latched
result_st ends as the first non-OK worker status, OK if none. -/
theorem finish_callback_contract (sts : List Status) (k : Nat)
    (hne : sts ≠ []) (hk : k < sts.length) :
    (runCallbacks (initCallbackState sts.length) (sts.take k)).counter
        = (sts.length : Int) - (k : Int) ∧
    (runCallbacks (initCallbackState sts.length) (sts.take k)).queueShutdown = false ∧
    (runCallbacks (initCallbackState sts.length) sts).counter = 0 ∧
    (runCallbacks (initCallbackState sts.length) sts).queueShutdown = true ∧
    (runCallbacks (initCallbackState sts.length) sts).resultSt = firstNonOk sts := by
  have hlen : 1 ≤ sts.length := List.length_pos.mpr hne
  refine ⟨?_, ?_, ?_, ?_, ?_⟩
  · rw [runCallbacks_counter]
    simp only [initCallbackState, List.length_take]
    push_cast
    omega
  · rw [runCallbacks_shutdown]
    simp only [initCallbackState, Bool.false_or, List.length_take]
    refine decide_eq_false ?_
    push_cast
    omega
  · rw [runCallbacks_counter]
    simp [initCallbackState]
  · rw [runCallbacks_shutdown]
    simp only [initCallbackState, Bool.false_or]
    refine decide_eq_true ⟨?_, le_refl _⟩
    exact_mod_cast hlen
  · exact runCallbacks_latch_ok sts _ rfl

theorem finish_callback_contract_witness :
    ([Status.ok, Status.ioError "broker disconnect", Status.ioError "timeout"] ≠ [] ∧
      1 < [Status.ok, Status.ioError "broker disconnect", Status.ioError "timeout"].length) ∧
    ((runCallbacks (initCallbackState 3) [Status.ok]).counter = (3 : Int) - (1 : Nat) ∧
      (runCallbacks (initCallbackState 3) [Status.ok]).queueShutdown = false ∧
      (runCallbacks (initCallbackState 3)
        [Status.ok, Status.ioError "broker disconnect", Status.ioError "timeout"]).counter = 0 ∧
      (runCallbacks (initCallbackState 3)
        [Status.ok, Status.ioError "broker disconnect", Status.ioError "timeout"]).queueShutdown
          = true ∧
      (runCallbacks (initCallbackState 3)
        [Status.ok, Status.ioError "broker disconnect", Status.ioError "timeout"]).resultSt
          = firstNonOk [Status.ok, Status.ioError "broker disconnect",
              Status.ioError "timeout"]) := by
  have hk : (1 : Nat) <
      [Status.ok, Status.ioError "broker disconnect", Status.ioError "timeout"].length := by
    decide
  refine ⟨⟨by decide, hk⟩, ?_⟩
  have h := finish_callback_contract
    [Status.ok, Status.ioError "broker disconnect", Status.ioError "timeout"] 1
    (by decide) hk
  simpa using h

/-- C7: the byte budget is checked only at the loop top, after
subtraction.  With budget 1000 and three successfully appended records
of length 400: after two records the loop is still running (remaining
budget 200), the third record drives the budget to -200, the loop then
terminates, the pipe is finished, and receive_bytes is set to 1200. -/
theorem byte_budget_overshoot_scenario :
    runDrain ⟨10, 1000, [], 0⟩
        [.got ⟨0, 1, 400⟩ .ok 1000000, .got ⟨0, 2, 400⟩ .ok 2000000] = none ∧
    (processEvent ⟨10, 1000, [], 0⟩
        (processEvent ⟨10, 1000, [], 0⟩ (initLoopState ⟨10, 1000, [], 0⟩)
          (.got ⟨0, 1, 400⟩ .ok 1000000))
        (.got ⟨0, 2, 400⟩ .ok 2000000)).leftBytes = 200 ∧
    runDrain ⟨10, 1000, [], 0⟩
        [.got ⟨0, 1, 400⟩ .ok 1000000, .got ⟨0, 2, 400⟩ .ok 2000000,
         .got ⟨0, 3, 400⟩ .ok 3000000] =
      some ⟨9997, 3, -200, [(0, 3)], .ok, false⟩ ∧
    start_all ⟨10, 1000, [], 0⟩ [true] [.ok]
        [.got ⟨0, 1, 400⟩ .ok 1000000, .got ⟨0, 2, 400⟩ .ok 2000000,
         .got ⟨0, 3, 400⟩ .ok 3000000] =
      some ⟨.ok, true, true, true, true, none, [(0, 3)], 1200⟩ :=
  ⟨rfl, rfl, rfl, rfl⟩

/-- C1: evaluation of the drain loop at a record whose pipe append
fails.  Line 174 of the source discards the status returned by the
append call, so the st variable read at line 177 is still its initial
OK value: the failed record is nevertheless counted, its length is
subtracted from the byte budget, its offset is committed, eos is not
set, and a further record is appended afterwards; the run even ends in
success.  The failure branch at lines 182-186 is unreachable. -/
theorem append_failure_ignored_code_bug :
    (processEvent ⟨10, 1000, [], 0⟩ (initLoopState ⟨10, 1000, [], 0⟩)
        (.got ⟨0, 5, 7⟩ (.ioError "append rejected") 1000000)).eos = false ∧
    (processEvent ⟨10, 1000, [], 0⟩ (initLoopState ⟨10, 1000, [], 0⟩)
        (.got ⟨0, 5, 7⟩ (.ioError "append rejected") 1000000)).cmtOffset = [(0, 5)] ∧
    (processEvent ⟨10, 1000, [], 0⟩ (initLoopState ⟨10, 1000, [], 0⟩)
        (.got ⟨0, 5, 7⟩ (.ioError "append rejected") 1000000)).receivedRows = 1 ∧
    start_all ⟨10, 1000, [], 0⟩ [true] [.ok]
        [.got ⟨0, 5, 7⟩ (.ioError "append rejected") 1000000,
         .got ⟨0, 6, 7⟩ (.ioError "append rejected") 2000000,
         .closed 3000000] =
      some ⟨.ok, true, true, true, true, none, [(0, 6)], 14⟩ :=
  ⟨rfl, rfl, rfl, rfl⟩

/-! ### Drain-loop invariants -/

theorem processEvent_leftBytes_le (ctx : StreamLoadContext) (s : LoopState)
    (ev : DrainEvent) : (processEvent ctx s ev).leftBytes ≤ s.leftBytes := by
  cases ev with
  | got msg apSt el =>
    simp only [processEvent]
    split
    · simp only
      omega
    · exact le_refl _
  | closed el => simp [processEvent]

theorem drainStep_leftBytes_le (ctx : StreamLoadContext) :
    ∀ (events : List DrainEvent) (s s1 : LoopState),
      drainStep ctx s events = some s1 → s1.leftBytes ≤ s.leftBytes := by
  intro events
  induction events with
  | nil =>
    intro s s1 h
    simp only [drainStep] at h
    split at h
    · cases h; exact le_refl _
    · cases h
  | cons ev rest ih =>
    intro s s1 h
    simp only [drainStep] at h
    split at h
    · cases h; exact le_refl _
    · calc s1.leftBytes ≤ (processEvent ctx s ev).leftBytes := ih (processEvent ctx s ev) s1 h
        _ ≤ s.leftBytes := processEvent_leftBytes_le ctx s ev

theorem processEvent_cmt_other (ctx : StreamLoadContext) (s : LoopState)
    (ev : DrainEvent) (p : Int)
    (hp : ∀ m apSt el, ev = .got m apSt el → m.partition ≠ p) :
    mapGet (processEvent ctx s ev).cmtOffset p = mapGet s.cmtOffset p := by
  cases ev with
  | got msg apSt el =>
    have hne : msg.partition ≠ p := hp msg apSt el rfl
    simp only [processEvent]
    split
    · simp only [mapGet_mapSet]
      rw [if_neg (fun h => hne h.symm)]
    · simp only
  | closed el => simp [processEvent]

theorem drainStep_cmt_other (ctx : StreamLoadContext) :
    ∀ (events : List DrainEvent) (s s1 : LoopState) (p : Int),
      (∀ m apSt el, DrainEvent.got m apSt el ∈ events → m.partition ≠ p) →
      drainStep ctx s events = some s1 →
      mapGet s1.cmtOffset p = mapGet s.cmtOffset p := by
  intro events
  induction events with
  | nil =>
    intro s s1 p hp h
    simp only [drainStep] at h
    split at h
    · cases h; rfl
    · cases h
  | cons ev rest ih =>
    intro s s1 p hp h
    simp only [drainStep] at h
    split at h
    · cases h; rfl
    · have h1 : ∀ m apSt el, DrainEvent.got m apSt el ∈ rest → m.partition ≠ p :=
        fun m apSt el hm => hp m apSt el (List.mem_cons_of_mem _ hm)
      have h2 : ∀ m apSt el, ev = DrainEvent.got m apSt el → m.partition ≠ p :=
        fun m apSt el he => hp m apSt el (he ▸ List.mem_cons_self _ _)
      rw [ih (processEvent ctx s ev) s1 p h1 h, processEvent_cmt_other ctx s ev p h2]

theorem processEvent_cmt_isSome (ctx : StreamLoadContext) (s : LoopState)
    (ev : DrainEvent) (q : Int)
    (hq : (mapGet s.cmtOffset q).isSome = true) :
    (mapGet (processEvent ctx s ev).cmtOffset q).isSome = true := by
  cases ev with
  | got msg apSt el =>
    simp only [processEvent]
    split
    · simp only [mapGet_mapSet]
      split
      · rfl
      · exact hq
    · exact hq
  | closed el => simpa [processEvent] using hq

theorem drainStep_cmt_isSome (ctx : StreamLoadContext) :
    ∀ (events : List DrainEvent) (s s1 : LoopState) (q : Int),
      (mapGet s.cmtOffset q).isSome = true →
      drainStep ctx s events = some s1 →
      (mapGet s1.cmtOffset q).isSome = true := by
  intro events
  induction events with
  | nil =>
    intro s s1 q hq h
    simp only [drainStep] at h
    split at h
    · cases h; exact hq
    · cases h
  | cons ev rest ih =>
    intro s s1 q hq h
    simp only [drainStep] at h
    split at h
    · cases h; exact hq
    · exact ih (processEvent ctx s ev) s1 q (processEvent_cmt_isSome ctx s ev q hq) h

/-- Unpacks a successful start_all run into its drain exit state. -/
theorem start_all_eq_finalize (ctx : StreamLoadContext) (offers : List Bool)
    (wsts : List Status) (events : List DrainEvent) (r : FinalResult)
    (h : start_all ctx offers wsts events = some r) :
    (∃ s, runDrain ctx events = some s ∧ r = finalize ctx (latchedResult wsts) s) ∨
    ((submitAll offers).isOk = false ∧ r = submitFailResult ctx (submitAll offers)) := by
  by_cases hsub : (submitAll offers).isOk = true
  · left
    simp only [start_all, hsub, if_true, Option.map_eq_some'] at h
    obtain ⟨s, hs, hr⟩ := h
    exact ⟨s, hs, hr.symm⟩
  · right
    have hsub' : (submitAll offers).isOk = false := by simpa using hsub
    simp only [start_all, hsub', Bool.false_eq_true, if_false, Option.some.injEq] at h
    exact ⟨hsub', h.symm⟩

/-- C2: if the first-error latch is non-OK when the drain loop
finalizes (some worker run ended with a non-OK status), start_all
returns exactly the latched error, regardless of how much was received,
and on that path the pipe is neither finished nor cancelled. -/
theorem worker_error_propagated (ctx : StreamLoadContext) (offers : List Bool)
    (wsts : List Status) (events : List DrainEvent) (r : FinalResult)
    (h : start_all ctx offers wsts events = some r)
    (hoff : submitAll offers = .ok)
    (herr : (latchedResult wsts).isOk = false) :
    r.status = latchedResult wsts ∧ r.pipeFinished = false ∧
      r.pipeCancelReason = none := by
  rcases start_all_eq_finalize ctx offers wsts events r h with ⟨s, _, hr⟩ | ⟨hsub, _⟩
  · rw [hr]
    simp [finalize, herr]
  · rw [hoff] at hsub
    simp [Status.isOk] at hsub

theorem worker_error_propagated_witness :
    start_all ⟨10, 1000, [], 0⟩ [true] [Status.ioError "source disconnect"]
        [.got ⟨0, 1, 400⟩ .ok 1000000, .closed 2000000] =
      some ⟨.ioError "source disconnect", true, true, true, false, none, [], 0⟩ ∧
    submitAll [true] = .ok ∧
    (latchedResult [Status.ioError "source disconnect"]).isOk = false ∧
    ((⟨.ioError "source disconnect", true, true, true, false, none, [], 0⟩ :
        FinalResult).status = latchedResult [Status.ioError "source disconnect"] ∧
      (⟨.ioError "source disconnect", true, true, true, false, none, [], 0⟩ :
        FinalResult).pipeFinished = false ∧
      (⟨.ioError "source disconnect", true, true, true, false, none, [], 0⟩ :
        FinalResult).pipeCancelReason = none) :=
  ⟨by decide, by decide, by decide,
    worker_error_propagated ⟨10, 1000, [], 0⟩ [true] [Status.ioError "source disconnect"]
      [.got ⟨0, 1, 400⟩ .ok 1000000, .closed 2000000]
      ⟨.ioError "source disconnect", true, true, true, false, none, [], 0⟩
      (by decide) (by decide) (by decide)⟩

/-- C5: when no worker error is latched and zero bytes were received in
this invocation (left_bytes still equals max_batch_size at the drain
exit), start_all cancels the pipe with the Cancelled reason, returns
the cancellation, and never calls finish on the pipe. -/
theorem empty_batch_cancelled (ctx : StreamLoadContext) (offers : List Bool)
    (wsts : List Status) (events : List DrainEvent) (s : LoopState) (r : FinalResult)
    (h : start_all ctx offers wsts events = some r)
    (hoff : submitAll offers = .ok)
    (hok : (latchedResult wsts).isOk = true)
    (hdrain : runDrain ctx events = some s)
    (hz : s.leftBytes = ctx.maxBatchSize) :
    r.status = .cancelled "Cancelled" ∧
    r.pipeCancelReason = some (.cancelled "Cancelled") ∧
    r.pipeFinished = false := by
  rcases start_all_eq_finalize ctx offers wsts events r h with ⟨s2, hs2, hr⟩ | ⟨hsub, hr⟩
  · rw [hdrain] at hs2
    cases hs2
    rw [hr]
    simp [finalize, hok, hz]
  · rw [hoff] at hsub
    simp [Status.isOk] at hsub

theorem empty_batch_cancelled_witness :
    start_all ⟨10, 1000, [], 0⟩ [true] [Status.ok] [.closed 1000000] =
      some ⟨.cancelled "Cancelled", true, true, true, false,
        some (.cancelled "Cancelled"), [], 0⟩ ∧
    submitAll [true] = .ok ∧
    (latchedResult [Status.ok]).isOk = true ∧
    runDrain ⟨10, 1000, [], 0⟩ [.closed 1000000] =
      some ⟨9999, 0, 1000, [], .ok, true⟩ ∧
    (⟨9999, 0, 1000, [], .ok, true⟩ : LoopState).leftBytes =
      (⟨10, 1000, [], 0⟩ : StreamLoadContext).maxBatchSize ∧
    ((⟨.cancelled "Cancelled", true, true, true, false,
        some (.cancelled "Cancelled"), [], 0⟩ : FinalResult).status
          = .cancelled "Cancelled" ∧
      (⟨.cancelled "Cancelled", true, true, true, false,
        some (.cancelled "Cancelled"), [], 0⟩ : FinalResult).pipeCancelReason
          = some (.cancelled "Cancelled") ∧
      (⟨.cancelled "Cancelled", true, true, true, false,
        some (.cancelled "Cancelled"), [], 0⟩ : FinalResult).pipeFinished = false) :=
  ⟨by decide, by decide, by decide, by decide, by decide,
    empty_batch_cancelled ⟨10, 1000, [], 0⟩ [true] [Status.ok] [.closed 1000000]
      ⟨9999, 0, 1000, [], .ok, true⟩
      ⟨.cancelled "Cancelled", true, true, true, false,
        some (.cancelled "Cancelled"), [], 0⟩
      (by decide) (by decide) (by decide) (by decide) (by decide)⟩

/-- C3: the context fields kafka_info cmt_offset and receive_bytes are
written back exactly on the success return of start_all; success
requires an OK first-error latch and at least one received byte, and on
the error return as well as on the empty-batch cancellation the two
context fields keep their prior values. -/
theorem context_written_back_only_on_success (ctx : StreamLoadContext)
    (offers : List Bool) (wsts : List Status) (events : List DrainEvent)
    (r : FinalResult) (h : start_all ctx offers wsts events = some r) :
    (r.status = .ok →
      latchedResult wsts = .ok ∧
      ∃ s, runDrain ctx events = some s ∧
        r.ctxCmtOffset = s.cmtOffset ∧
        r.ctxReceiveBytes = ctx.maxBatchSize - s.leftBytes ∧
        0 < r.ctxReceiveBytes) ∧
    (r.status ≠ .ok →
      r.ctxCmtOffset = ctx.cmtOffset ∧ r.ctxReceiveBytes = ctx.receiveBytes) := by
  rcases start_all_eq_finalize ctx offers wsts events r h with ⟨s, hs, hr⟩ | ⟨hsub, hr⟩
  · have hle : s.leftBytes ≤ ctx.maxBatchSize := by
      have hs' : drainStep ctx (initLoopState ctx) events = some s := hs
      have := drainStep_leftBytes_le ctx events (initLoopState ctx) s hs'
      simpa [initLoopState] using this
    subst hr
    constructor
    · intro hok
      by_cases hlat : (latchedResult wsts).isOk
      · by_cases hz : s.leftBytes = ctx.maxBatchSize
        · exfalso
          have hstat : (finalize ctx (latchedResult wsts) s).status =
              .cancelled "Cancelled" := by
            simp [finalize, hlat, hz]
          rw [hstat] at hok
          simp at hok
        · have h1 : finalize ctx (latchedResult wsts) s =
              { status := .ok, queueShutdown := true, consumersCancelled := true
                poolJoined := true, pipeFinished := true, pipeCancelReason := none
                ctxCmtOffset := s.cmtOffset
                ctxReceiveBytes := ctx.maxBatchSize - s.leftBytes } := by
            simp [finalize, hlat, hz]
          rw [h1]
          refine ⟨(Status.isOk_iff _).mp hlat, s, hs, rfl, rfl, ?_⟩
          simp only
          omega
      · exfalso
        have hlat' : (latchedResult wsts).isOk = false := by simpa using hlat
        have hstat : (finalize ctx (latchedResult wsts) s).status = latchedResult wsts := by
          simp [finalize, hlat']
        rw [hstat] at hok
        rw [hok] at hlat'
        simp [Status.isOk] at hlat'
    · intro hne
      by_cases hlat : (latchedResult wsts).isOk
      · by_cases hz : s.leftBytes = ctx.maxBatchSize
        · simp [finalize, hlat, hz]
        · exfalso
          apply hne
          simp [finalize, hlat, hz]
      · have hlat' : (latchedResult wsts).isOk = false := by simpa using hlat
        simp [finalize, hlat']
  · subst hr
    constructor
    · intro hok
      exfalso
      simp only [submitFailResult] at hok
      rw [hok] at hsub
      simp [Status.isOk] at hsub
    · intro _
      exact ⟨rfl, rfl⟩

theorem context_written_back_only_on_success_witness :
    start_all ⟨10, 1000, [(3, 9)], 5⟩ [true] [Status.ok]
        [.got ⟨0, 1, 400⟩ .ok 1000000, .closed 2000000] =
      some ⟨.ok, true, true, true, true, none, [(3, 9), (0, 1)], 400⟩ ∧
    (((⟨.ok, true, true, true, true, none, [(3, 9), (0, 1)], 400⟩ :
          FinalResult).status = .ok →
        latchedResult [Status.ok] = .ok ∧
        ∃ s, runDrain ⟨10, 1000, [(3, 9)], 5⟩
              [.got ⟨0, 1, 400⟩ .ok 1000000, .closed 2000000] = some s ∧
          (⟨.ok, true, true, true, true, none, [(3, 9), (0, 1)], 400⟩ :
            FinalResult).ctxCmtOffset = s.cmtOffset ∧
          (⟨.ok, true, true, true, true, none, [(3, 9), (0, 1)], 400⟩ :
            FinalResult).ctxReceiveBytes =
              (⟨10, 1000, [(3, 9)], 5⟩ : StreamLoadContext).maxBatchSize - s.leftBytes ∧
          0 < (⟨.ok, true, true, true, true, none, [(3, 9), (0, 1)], 400⟩ :
            FinalResult).ctxReceiveBytes) ∧
      ((⟨.ok, true, true, true, true, none, [(3, 9), (0, 1)], 400⟩ :
          FinalResult).status ≠ .ok →
        (⟨.ok, true, true, true, true, none, [(3, 9), (0, 1)], 400⟩ :
            FinalResult).ctxCmtOffset =
          (⟨10, 1000, [(3, 9)], 5⟩ : StreamLoadContext).cmtOffset ∧
        (⟨.ok, true, true, true, true, none, [(3, 9), (0, 1)], 400⟩ :
            FinalResult).ctxReceiveBytes =
          (⟨10, 1000, [(3, 9)], 5⟩ : StreamLoadContext).receiveBytes)) :=
  ⟨by decide,
    context_written_back_only_on_success ⟨10, 1000, [(3, 9)], 5⟩ [true] [Status.ok]
      [.got ⟨0, 1, 400⟩ .ok 1000000, .closed 2000000]
      ⟨.ok, true, true, true, true, none, [(3, 9), (0, 1)], 400⟩ (by decide)⟩

/-- True when no event of the trace dequeues a record of partition p. -/
def noGotForPartition (events : List DrainEvent) (p : Int) : Bool :=
  events.all fun ev =>
    match ev with
    | .got m _ _ => m.partition != p
    | .closed _ => true

theorem noGotForPartition_spec (events : List DrainEvent) (p : Int)
    (h : noGotForPartition events p = true) :
    ∀ m apSt el, DrainEvent.got m apSt el ∈ events → m.partition ≠ p := by
  intro m apSt el hm
  have hev := List.all_eq_true.mp h _ hm
  simpa using hev

/-- C9: on the success outcome the committed-offset map written back to
the context keeps unchanged every entry of the prior map whose
partition had no record dequeued in this invocation, and no entry of
the prior map is ever removed: the working map starts as a copy of the
prior checkpoint and is only ever overwritten entry by entry. -/
theorem cmt_entries_preserved (ctx : StreamLoadContext) (offers : List Bool)
    (wsts : List Status) (events : List DrainEvent) (r : FinalResult) (p q : Int)
    (h : start_all ctx offers wsts events = some r)
    (hok : r.status = .ok)
    (hp : noGotForPartition events p = true)
    (hq : (mapGet ctx.cmtOffset q).isSome = true) :
    mapGet r.ctxCmtOffset p = mapGet ctx.cmtOffset p ∧
    (mapGet r.ctxCmtOffset q).isSome = true := by
  have hp' := noGotForPartition_spec events p hp
  rcases start_all_eq_finalize ctx offers wsts events r h with ⟨s, hs, hr⟩ | ⟨hsub, hr⟩
  · have hs' : drainStep ctx (initLoopState ctx) events = some s := hs
    subst hr
    by_cases hlat : (latchedResult wsts).isOk
    · by_cases hz : s.leftBytes = ctx.maxBatchSize
      · exfalso
        have hstat : (finalize ctx (latchedResult wsts) s).status =
            .cancelled "Cancelled" := by
          simp [finalize, hlat, hz]
        rw [hstat] at hok
        simp at hok
      · have hcmt : (finalize ctx (latchedResult wsts) s).ctxCmtOffset = s.cmtOffset := by
          simp [finalize, hlat, hz]
        rw [hcmt]
        have hinit : (initLoopState ctx).cmtOffset = ctx.cmtOffset := rfl
        constructor
        · rw [drainStep_cmt_other ctx events (initLoopState ctx) s p hp' hs', hinit]
        · exact drainStep_cmt_isSome ctx events (initLoopState ctx) s q
            (by rw [hinit]; exact hq) hs'
    · exfalso
      have hlat' : (latchedResult wsts).isOk = false := by simpa using hlat
      have hstat : (finalize ctx (latchedResult wsts) s).status = latchedResult wsts := by
        simp [finalize, hlat']
      rw [hstat] at hok
      rw [hok] at hlat'
      simp [Status.isOk] at hlat'
  · subst hr
    exfalso
    simp only [submitFailResult] at hok
    rw [hok] at hsub
    simp [Status.isOk] at hsub

theorem cmt_entries_preserved_witness :
    start_all ⟨10, 1000, [(3, 9)], 0⟩ [true] [Status.ok]
        [.got ⟨1, 5, 100⟩ .ok 1000000, .closed 2000000] =
      some ⟨.ok, true, true, true, true, none, [(3, 9), (1, 5)], 100⟩ ∧
    (⟨.ok, true, true, true, true, none, [(3, 9), (1, 5)], 100⟩ :
        FinalResult).status = .ok ∧
    noGotForPartition [.got ⟨1, 5, 100⟩ .ok 1000000, .closed 2000000] 3 = true ∧
    (mapGet [(3, 9)] 3).isSome = true ∧
    (mapGet [(3, 9), (1, 5)] 3 = mapGet [(3, 9)] 3 ∧
      (mapGet [(3, 9), (1, 5)] 3).isSome = true) :=
  ⟨by decide, by decide, by decide, by decide,
    cmt_entries_preserved ⟨10, 1000, [(3, 9)], 0⟩ [true] [Status.ok]
      [.got ⟨1, 5, 100⟩ .ok 1000000, .closed 2000000]
      ⟨.ok, true, true, true, true, none, [(3, 9), (1, 5)], 100⟩ 3 3
      (by decide) (by decide) (by decide) (by decide)⟩

theorem divideParts_getD (R : Nat) (bo : List (Int × Int)) (j : Nat) (hj : j < R) :
    (divideParts R bo).getD j [] =
      (bo.enum.filter fun p => p.1 % R == j).map Prod.snd := by
  have hlen : j < (divideParts R bo).length := by simpa [divideParts] using hj
  rw [List.getD_eq_getElem _ _ hlen]
  simp [divideParts]

theorem mem_divideParts_bucket (R : Nat) (bo : List (Int × Int)) (j : Nat)
    (kv : Int × Int) (hj : j < R) :
    kv ∈ (divideParts R bo).getD j [] ↔
      ∃ n : Nat, bo[n]? = some kv ∧ n % R = j := by
  rw [divideParts_getD R bo j hj]
  constructor
  · intro hm
    obtain ⟨p, hp, hsnd⟩ := List.mem_map.mp hm
    obtain ⟨hpe, hpred⟩ := List.mem_filter.mp hp
    obtain ⟨n, a⟩ := p
    simp only at hsnd
    subst hsnd
    refine ⟨n, List.mk_mem_enum_iff_getElem?.mp hpe, ?_⟩
    simpa using hpred
  · rintro ⟨n, hn, hmod⟩
    refine List.mem_map.mpr ⟨(n, kv), List.mem_filter.mpr ⟨?_, ?_⟩, rfl⟩
    · exact List.mk_mem_enum_iff_getElem?.mpr hn
    · simpa using hmod

/-- C4: assign_topic_partitions divides the begin_offset map, in its
iteration order, by index-modulo round robin: divide_parts has one
bucket per consumer, the i-th partition entry lands in bucket i mod R
and in no other bucket, the union of the buckets is exactly the input
partition set, and with 4 partitions 0,1,2,3 and 2 consumers, consumer
0 receives partitions 0 and 2 and consumer 1 receives 1 and 3. -/
theorem assign_round_robin (R : Nat) (bo : List (Int × Int)) (i j : Nat)
    (kv : Int × Int) (hR : 1 ≤ R) (hnd : (bo.map Prod.fst).Nodup)
    (hi : i < bo.length) (hj : j < R) :
    (divideParts R bo).length = R ∧
    (bo[i] ∈ (divideParts R bo).getD j [] ↔ j = i % R) ∧
    (kv ∈ (divideParts R bo).flatten ↔ kv ∈ bo) ∧
    (divideParts 2 [(0, 100), (1, 101), (2, 102), (3, 103)]).map (List.map Prod.fst) =
      [[0, 2], [1, 3]] := by
  have hndp : bo.Nodup := hnd.of_map _
  refine ⟨by simp [divideParts], ?_, ?_, by decide⟩
  · rw [mem_divideParts_bucket R bo j bo[i] hj]
    constructor
    · rintro ⟨n, hn, hmod⟩
      obtain ⟨hlt, hv⟩ := List.getElem?_eq_some_iff.mp hn
      have hni : n = i := (hndp.getElem_inj_iff).mp hv
      rw [hni] at hmod
      exact hmod.symm
    · intro hji
      exact ⟨i, List.getElem?_eq_getElem hi, hji.symm⟩
  · constructor
    · intro hm
      obtain ⟨l, hl, hkv⟩ := List.mem_flatten.mp hm
      obtain ⟨j2, hj2, hlf⟩ := List.mem_map.mp hl
      have hj2R : j2 < R := List.mem_range.mp hj2
      have hb : kv ∈ (divideParts R bo).getD j2 [] := by
        rw [divideParts_getD R bo j2 hj2R]
        rw [hlf]
        exact hkv
      obtain ⟨n, hn, _⟩ := (mem_divideParts_bucket R bo j2 kv hj2R).mp hb
      exact List.mem_iff_getElem?.mpr ⟨n, hn⟩
    · intro hkv
      obtain ⟨n, hn⟩ := List.mem_iff_getElem?.mp hkv
      have hmod : n % R < R := Nat.mod_lt n hR
      have hb : kv ∈ (divideParts R bo).getD (n % R) [] :=
        (mem_divideParts_bucket R bo (n % R) kv hmod).mpr ⟨n, hn, rfl⟩
      have hlen : n % R < (divideParts R bo).length := by simpa [divideParts] using hmod
      refine List.mem_flatten.mpr ⟨(divideParts R bo).getD (n % R) [], ?_, hb⟩
      rw [List.getD_eq_getElem _ _ hlen]
      exact List.getElem_mem hlen

theorem assign_round_robin_witness :
    (1 ≤ 2 ∧
      (([((0 : Int), (100 : Int)), (1, 101), (2, 102), (3, 103)].map Prod.fst).Nodup) ∧
      2 < [((0 : Int), (100 : Int)), (1, 101), (2, 102), (3, 103)].length ∧ 0 < 2) ∧
    ((divideParts 2 [((0 : Int), (100 : Int)), (1, 101), (2, 102), (3, 103)]).length = 2 ∧
      ([((0 : Int), (100 : Int)), (1, 101), (2, 102), (3, 103)][2] ∈
          (divideParts 2 [((0 : Int), (100 : Int)), (1, 101), (2, 102), (3, 103)]).getD 0 []
        ↔ 0 = 2 % 2) ∧
      (((1 : Int), (101 : Int)) ∈
          (divideParts 2 [((0 : Int), (100 : Int)), (1, 101), (2, 102), (3, 103)]).flatten
        ↔ ((1 : Int), (101 : Int)) ∈ [((0 : Int), (100 : Int)), (1, 101), (2, 102), (3, 103)]) ∧
      (divideParts 2 [(0, 100), (1, 101), (2, 102), (3, 103)]).map (List.map Prod.fst) =
        [[0, 2], [1, 3]]) :=
  ⟨⟨by decide, by decide, by decide, by decide⟩,
    assign_round_robin 2 [((0 : Int), (100 : Int)), (1, 101), (2, 102), (3, 103)] 2 0
      ((1 : Int), (101 : Int)) (by decide) (by decide) (by decide) (by decide)⟩

end ConsumerGroup
